import Mathlib

/-!
Verification of the page-table reconstruction pipeline of the Xen guest
restore engine (tools/libxc/xc_linux_restore.c) and of the PV callback
hypercall surface (xen/arch/x86/pv/callback.c), as a shallow embedding.

Machine integers are modelled as Nat with explicit reduction modulo
2^32 / 2^64 exactly where the C code truncates.  Pages are lists of PTE
slots at the stride the source reads them with.  Mutable process-global
state (p2m, pfn_type, the mmu-update queue, guest memory reachable
through foreign mappings) is threaded explicitly.
-/

namespace Xen

/-- Page shift used throughout the tools (4 KiB pages). -/
def PAGE_SHIFT : Nat := 12

/-- Page size in bytes. -/
def PAGE_SIZE : Nat := 4096

/-- Modulus of a 64-bit machine word (unsigned long / uint64_t on x86_64). -/
def WORD64 : Nat := 2 ^ 64

/-- Modulus of a 32-bit word (uint32_t). -/
def WORD32 : Nat := 2 ^ 32

/-- Present bit of a PTE (bit 0). -/
def _PAGE_PRESENT : Nat := 1

/-- Modelled from the spec: shift of the per-pfn table-type nibble of the
XEN_DOMCTL_PFINFO_* encoding (the header carrying it is not under src/;
the source prints the level as the type word shifted right by 28). -/
def LTAB_SHIFT : Nat := 28

/-- Type tag of an ordinary (non-page-table) page. -/
def NOTAB : Nat := 0

/-- Type tag of an L1 page table. -/
def L1TAB : Nat := 1 <<< LTAB_SHIFT

/-- Type tag of an L2 page table. -/
def L2TAB : Nat := 2 <<< LTAB_SHIFT

/-- Type tag of an L3 page table. -/
def L3TAB : Nat := 3 <<< LTAB_SHIFT

/-- Type tag of an L4 page table. -/
def L4TAB : Nat := 4 <<< LTAB_SHIFT

/-- Mask selecting the three table-type bits of the type nibble. -/
def LTABTYPE_MASK : Nat := 7 <<< LTAB_SHIFT

/-- Pin flag: the page must be pinned as a page table after loading. -/
def LPINTAB : Nat := 8 <<< LTAB_SHIFT

/-- Sentinel tag of a bogus/unmapped page (no payload in the stream). -/
def XTAB : Nat := 15 <<< LTAB_SHIFT

/-- Mask selecting the whole type nibble (XEN_DOMCTL_PFINFO_LTAB_MASK). -/
def LTAB_MASK : Nat := 15 <<< LTAB_SHIFT

/-- Complement of LTAB_MASK within a 64-bit word, as the C expression
`~XEN_DOMCTL_PFINFO_LTAB_MASK` evaluates on unsigned long. -/
def LTAB_MASK_COMPL : Nat := (WORD64 - 1) - LTAB_MASK

/-- Width-respecting read of one PTE slot: 4 bytes when pt_levels == 2,
8 bytes otherwise (uncanonicalize_pagetable, lines 71-74 of the source). -/
def readPTE (ptLevels w : Nat) : Nat :=
  if ptLevels = 2 then w % WORD32 else w % WORD64

/-- Width-respecting store of a rewritten PTE (lines 92-95 of the source):
the value is truncated to 32 bits for a 2-level guest. -/
def storePTE (ptLevels v : Nat) : Nat :=
  if ptLevels = 2 then v % WORD32 else v % WORD64

/-- Body of one iteration of uncanonicalize_pagetable (lines 76-99):
none models the early `return 0` when the pfn field of a present PTE is
out of range; `some v` is the value the slot holds afterwards (the
original value when the present bit is clear, since no store happens). -/
def uncanonPTE (ptLevels maxPfn : Nat) (p2m : Nat → Nat) (w : Nat) : Option Nat :=
  if readPTE ptLevels w &&& _PAGE_PRESENT ≠ 0 then
    if (readPTE ptLevels w >>> PAGE_SHIFT) &&& 0xffffffff ≥ maxPfn then
      none
    else
      some (storePTE ptLevels
        ((readPTE ptLevels w &&& 0xffffff0000000fff) |||
          ((p2m ((readPTE ptLevels w >>> PAGE_SHIFT) &&& 0xffffffff)
            <<< PAGE_SHIFT) % WORD64)))
  else
    some w

/-- The PTE loop of uncanonicalize_pagetable.  The first component is the
C return value (true = 1, false = 0); the second is the page contents
after the call.  On failure the slot the function bailed on and the slots
after it keep their previous contents (the C function returns from inside
the loop, leaving the page partially rewritten). -/
def uncanonLoop (ptLevels maxPfn : Nat) (p2m : Nat → Nat) : List Nat → Bool × List Nat
  | [] => (true, [])
  | w :: ws =>
    match uncanonPTE ptLevels maxPfn p2m w with
    | none => (false, w :: ws)
    | some v =>
      let r := uncanonLoop ptLevels maxPfn p2m ws
      (r.1, v :: r.2)

/-- uncanonicalize_pagetable (xc_linux_restore.c lines 60-103) acting on a
page given as the list of its PTE slots at the stride the source uses
(1024 4-byte slots for a 2-level guest, 512 8-byte slots otherwise).
The `type` argument of the C function is used only in its error log and
is omitted. -/
def uncanonicalize_pagetable (ptLevels maxPfn : Nat) (p2m : Nat → Nat)
    (page : List Nat) : Bool × List Nat :=
  uncanonLoop ptLevels maxPfn p2m page

/-- Process-global context the main loop and the PTE rewriter read:
pt_levels, max_pfn and the p2m table built from the hypervisor frame
list (statics at the top of xc_linux_restore.c). -/
structure Globals where
  pt_levels : Nat
  max_pfn : Nat
  p2m : Nat → Nat

/-- Mutable state one iteration of the batch loop touches: the pfn_type
table, the race counter, the queue of machphys (m2p) updates as
(mfn, pfn) pairs, guest memory indexed by mfn, and the unread remainder
of the page-payload stream. -/
structure LoopState where
  pfn_type : Nat → Nat
  nraces : Nat
  m2p : List (Nat × Nat)
  mem : Nat → List Nat
  stream : List (List Nat)

/-- Outcome of processing one batch entry: the fatal `goto out`, the
XTAB skip, the non-fatal uncanonicalization race (`nraces++; continue`),
or normal completion.  `rewrote` records whether
uncanonicalize_pagetable was invoked on the page. -/
inductive EntryOut
  | fatal : EntryOut
  | skip : LoopState → EntryOut
  | raced : LoopState → EntryOut
  | done : LoopState → Bool → EntryOut

/-- The pfn field of a batch-entry word (line 343 of the source):
`region_pfn_type[i] & ~XEN_DOMCTL_PFINFO_LTAB_MASK` on unsigned long. -/
def entry_pfn (w : Nat) : Nat := w &&& LTAB_MASK_COMPL

/-- The type nibble of a batch-entry word (line 344 of the source). -/
def entry_type (w : Nat) : Nat := w &&& LTAB_MASK

/-- Writing a page into the foreign mapping of an mfn.  In verify mode
the payload and any rewrite live in the scratch buffer, so guest memory
is untouched (line 383 of the source). -/
def writePage (verify : Bool) (st : LoopState) (mfn : Nat) (pg : List Nat) :
    LoopState :=
  if verify then st
  else { st with mem := fun m => if m = mfn then pg else st.mem m }

/-- Processing of batch entry `w` by the main loop (lines 360-461 of the
source): skip XTAB entries without consuming a payload, abort when the
pfn is above max_pfn (the source tests `pfn > max_pfn`), record
pfn_type, consume one payload page, drive uncanonicalize_pagetable on
page-table pages unless the PAE L1 deferral applies (racing is
non-fatal: the race counter is bumped and the rest of the entry is
skipped), abort on a bogus non-NOTAB type, and queue the m2p update
(mfn, pfn). -/
def processEntry (g : Globals) (pae verify : Bool) (w : Nat) (st : LoopState) :
    EntryOut :=
  if entry_type w = XTAB then .skip st
  else if entry_pfn w > g.max_pfn then .fatal
  else
    match st.stream with
    | [] => .fatal
    | page :: rest =>
      let st1 : LoopState :=
        { st with
          pfn_type := fun p => if p = entry_pfn w then entry_type w else st.pfn_type p
          stream := rest }
      let mfn := g.p2m (entry_pfn w)
      let ptype := entry_type w &&& LTABTYPE_MASK
      if L1TAB ≤ ptype ∧ ptype ≤ L4TAB then
        if g.pt_levels ≠ 3 ∨ pae = true ∨ ptype ≠ L1TAB then
          let r := uncanonicalize_pagetable g.pt_levels g.max_pfn g.p2m page
          let st2 := writePage verify st1 mfn r.2
          if r.1 then .done { st2 with m2p := st2.m2p ++ [(mfn, entry_pfn w)] } true
          else .raced { st2 with nraces := st2.nraces + 1 }
        else
          let st2 := writePage verify st1 mfn page
          .done { st2 with m2p := st2.m2p ++ [(mfn, entry_pfn w)] } false
      else if ptype ≠ NOTAB then .fatal
      else
        let st2 := writePage verify st1 mfn page
        .done { st2 with m2p := st2.m2p ++ [(mfn, entry_pfn w)] } false

/-- The per-batch loop over the entry words (the `for (i = 0; i < j; i++)`
of lines 360-461): the fatal outcome aborts the whole batch, every other
outcome moves on to the next entry. -/
def batchLoop (g : Globals) (pae verify : Bool) :
    List Nat → LoopState → Except Unit LoopState
  | [], st => .ok st
  | w :: ws, st =>
    match processEntry g pae verify w st with
    | .fatal => .error ()
    | .skip st' => batchLoop g pae verify ws st'
    | .raced st' => batchLoop g pae verify ws st'
    | .done st' _ => batchLoop g pae verify ws st'

/-- Gate of the PAE lowmem fixer (line 478 of the source):
`(pt_levels == 3) && !pae_extended_cr3`. -/
def paeFixupRuns (pt_levels : Nat) (pae : Bool) : Bool :=
  (pt_levels == 3) && (! pae)

/-- The conditional block of lines 478-578: the fixer body runs exactly
when its gate is true, otherwise the state passes through. -/
def paeFixupPhase (pt_levels : Nat) (pae : Bool) (body : α → α) (st : α) : α :=
  if paeFixupRuns pt_levels pae then body st else st

/-- True when the entry's processing invoked uncanonicalize_pagetable. -/
def invokedRewriter : EntryOut → Bool
  | .raced _ => true
  | .done _ r => r
  | _ => false

/-- True for the fatal outcome. -/
def entryFatal : EntryOut → Bool
  | .fatal => true
  | _ => false

/-- The pfn_type table entry at p after the outcome, none when fatal. -/
def entryPfnTypeAt (p : Nat) : EntryOut → Option Nat
  | .skip st => some (st.pfn_type p)
  | .raced st => some (st.pfn_type p)
  | .done st _ => some (st.pfn_type p)
  | .fatal => none

/-- The m2p queue after the outcome, none when fatal. -/
def entryM2P : EntryOut → Option (List (Nat × Nat))
  | .skip st => some st.m2p
  | .raced st => some st.m2p
  | .done st _ => some st.m2p
  | .fatal => none

/-- The race counter after the outcome, none when fatal. -/
def entryNraces : EntryOut → Option Nat
  | .skip st => some st.nraces
  | .raced st => some st.nraces
  | .done st _ => some st.nraces
  | .fatal => none

/-- Pin opcodes (MMUEXT_PIN_Lk_TABLE) of the mmuext pin interface. -/
inductive PinCmd
  | pinL1
  | pinL2
  | pinL3
  | pinL4
deriving DecidableEq

/-- The switch of the pin walk (lines 590-610 of the source): the Lk
opcode matching a table-type field, none for the default arm (which
`continue`s without emitting a command). -/
def pinCmdOf (t : Nat) : Option PinCmd :=
  if t = L1TAB then some .pinL1
  else if t = L2TAB then some .pinL2
  else if t = L3TAB then some .pinL3
  else if t = L4TAB then some .pinL4
  else none

/-- Modelled from the spec: MAX_PIN_BATCH, the implementation-chosen pin
batch size defined in the libxc headers, which are not under src/. -/
def MAX_PIN_BATCH : Nat := 1024

/-- The command pfn i contributes to the pin walk, if any (lines
585-613): nothing unless LPINTAB is set and the table-type has a
matching opcode; otherwise one command with that opcode and
mfn = p2m[i]. -/
def pinEmit (pfn_type p2m : Nat → Nat) (i : Nat) : Option (PinCmd × Nat) :=
  if pfn_type i &&& LPINTAB = 0 then none
  else (pinCmdOf (pfn_type i &&& LTABTYPE_MASK)).map (fun c => (c, p2m i))

/-- One iteration of the pin walk: append to the pending batch, and
submit it (append to the list of submitted batches) when it reaches the
batch size (lines 615-622). -/
def pinStep (B : Nat) (pfn_type p2m : Nat → Nat)
    (acc : List (List (PinCmd × Nat)) × List (PinCmd × Nat)) (i : Nat) :
    List (List (PinCmd × Nat)) × List (PinCmd × Nat) :=
  match pinEmit pfn_type p2m i with
  | none => acc
  | some c =>
    let pending := acc.2 ++ [c]
    if pending.length = B then (acc.1 ++ [pending], []) else (acc.1, pending)

/-- The pin walk over pfn_type[0..max_pfn) followed by the flush of the
final partial batch (lines 584-629): the list of submitted pin batches,
in submission order. -/
def pinner (B : Nat) (pfn_type p2m : Nat → Nat) (max_pfn : Nat) :
    List (List (PinCmd × Nat)) :=
  let acc := (List.range max_pfn).foldl (pinStep B pfn_type p2m) ([], [])
  if acc.2 = [] then acc.1 else acc.1 ++ [acc.2]

/-- State of PAE lowmem Pass A: the p2m table under repair, guest memory
as mfn → slot → 8-byte value, the queued m2p updates as (mfn, pfn)
pairs, and the number of make_page_below_4G calls made so far (which
indexes the allocator oracle). -/
structure PassAState where
  p2m : Nat → Nat
  mem : Nat → Nat → Nat
  m2p : List (Nat × Nat)
  calls : Nat

/-- One index of Pass A (lines 495-538 of the source): when pfn_type[i]
has table-type L3TAB and p2m[i] > 0xfffff, save the four 8-byte L3 slots
of the current mfn, call make_page_below_4G (modelled by the allocator
oracle applied to the call counter; a zero return is the fatal error
path), update p2m[i], queue an m2p update for (new_mfn, i), and write
the four saved slots into the new mfn. -/
def passAStep (alloc : Nat → Nat) (pfn_type : Nat → Nat) (i : Nat)
    (st : PassAState) : Except Unit PassAState :=
  if pfn_type i &&& LTABTYPE_MASK = L3TAB ∧ st.p2m i > 0xfffff then
    let saved := st.mem (st.p2m i)
    let new_mfn := alloc st.calls
    if new_mfn = 0 then .error ()
    else
      .ok { p2m := fun p => if p = i then new_mfn else st.p2m p
            mem := fun m =>
              if m = new_mfn then fun j => if j < 4 then saved j else st.mem m j
              else st.mem m
            m2p := st.m2p ++ [(new_mfn, i)]
            calls := st.calls + 1 }
  else
    .ok st

/-- Pass A's walk over `count` consecutive pfns starting at `start`. -/
def passASeg (alloc : Nat → Nat) (pfn_type : Nat → Nat) :
    Nat → Nat → PassAState → Except Unit PassAState
  | _, 0, st => .ok st
  | start, count + 1, st =>
    match passAStep alloc pfn_type start st with
    | .error e => .error e
    | .ok st' => passASeg alloc pfn_type (start + 1) count st'

/-- PAE lowmem fixer Pass A (lines 494-538): the walk over
pfn_type[0..max_pfn). -/
def passA (alloc : Nat → Nat) (pfn_type : Nat → Nat) (max_pfn : Nat)
    (st : PassAState) : Except Unit PassAState :=
  passASeg alloc pfn_type 0 max_pfn st

/-- The Pass A result state, with a default for the fatal case. -/
def segOutD (d : PassAState) : Except Unit PassAState → PassAState
  | .ok st => st
  | .error _ => d

/-- The LDT sanitization of the tail patcher (lines 802-808 of the
source): true when the saved context passes and restore proceeds to the
vCPU-context install, false for the fatal `goto out`.  The sum
`ldt_base + ldt_ents*8` is the unsigned 64-bit addition the C performs. -/
def ldt_check (ldt_base ldt_ents hvirt_start : Nat) : Bool :=
  if ldt_base &&& (PAGE_SIZE - 1) ≠ 0 ∨ ldt_ents > 8192 ∨
      ldt_base > hvirt_start ∨
      (ldt_base + ldt_ents * 8) % WORD64 > hvirt_start then
    false
  else
    true

/-- Callback types of the public callback interface.  The named
constructors stand for the distinct CALLBACKTYPE_* constants the switch
statements of callback.c name; `other` stands for any type value none
of them names (their default arms). -/
inductive CallbackType
  | event
  | failsafe
  | syscall
  | syscall32
  | sysenter
  | nmi
  | other
deriving DecidableEq

/-- Modelled from the spec: errno constant EINVAL (invalid argument);
the errno header is not under src/, the values are the x86 Linux ABI. -/
def EINVAL : Int := 22

/-- Modelled from the spec: errno constant ENOSYS (not implemented). -/
def ENOSYS : Int := 38

/-- Modelled from the spec: CALLBACKF_mask_events, bit 0 of
callback_register.flags (the public callback header is not under src/). -/
def CALLBACKF_mask_events : Nat := 1

/-- Per-vCPU PV callback state the register handlers write
(curr->arch.pv_vcpu entry points and the vgc_flags /
*_disables_events bits). -/
structure PVvcpu where
  event_callback_cs : Nat
  event_callback_eip : Nat
  failsafe_callback_cs : Nat
  failsafe_callback_eip : Nat
  syscall_callback_eip : Nat
  syscall32_callback_cs : Nat
  syscall32_callback_eip : Nat
  sysenter_callback_cs : Nat
  sysenter_callback_eip : Nat
  failsafe_disables_events : Bool
  syscall_disables_events : Bool
  syscall32_disables_events : Bool
  sysenter_disables_events : Bool
deriving DecidableEq

/-- register_guest_callback (callback.c lines 30-86).  The x86-64
canonical-address test (is_canonical_address, from an asm header not
under src/) and the NMI helper register_guest_nmi_callback are oracle
parameters.  Returns the C return value and the vCPU state. -/
def register_guest_callback (is_canonical : Nat → Bool)
    (nmi_register : Nat → PVvcpu → Int × PVvcpu)
    (ty : CallbackType) (address flags : Nat) (v : PVvcpu) : Int × PVvcpu :=
  if ! is_canonical address then (-EINVAL, v)
  else
    match ty with
    | .event => (0, { v with event_callback_eip := address })
    | .failsafe =>
      (0, { v with
        failsafe_callback_eip := address
        failsafe_disables_events := flags &&& CALLBACKF_mask_events != 0 })
    | .syscall =>
      (0, { v with
        syscall_callback_eip := address
        syscall_disables_events := flags &&& CALLBACKF_mask_events != 0 })
    | .syscall32 =>
      (0, { v with
        syscall32_callback_eip := address
        syscall32_disables_events := flags &&& CALLBACKF_mask_events != 0 })
    | .sysenter =>
      (0, { v with
        sysenter_callback_eip := address
        sysenter_disables_events := flags &&& CALLBACKF_mask_events != 0 })
    | .nmi => nmi_register address v
    | .other => (-ENOSYS, v)

/-- unregister_guest_callback (callback.c lines 88-112); the NMI helper
unregister_guest_nmi_callback result is an oracle parameter. -/
def unregister_guest_callback (nmi_unregister : Int) (ty : CallbackType) : Int :=
  match ty with
  | .event | .failsafe | .syscall | .syscall32 | .sysenter => -EINVAL
  | .nmi => nmi_unregister
  | .other => -ENOSYS

/-- compat_unregister_guest_callback (callback.c lines 227-251):
CALLBACKTYPE_syscall is not named by this switch, so it falls through to
the default arm together with unknown types. -/
def compat_unregister_guest_callback (nmi_unregister : Int) (ty : CallbackType) : Int :=
  match ty with
  | .event | .failsafe | .syscall32 | .sysenter => -EINVAL
  | .nmi => nmi_unregister
  | .syscall | .other => -ENOSYS

/-- Zeroed vCPU callback state for the concrete evaluations. -/
def vcpu0 : PVvcpu := ⟨0, 0, 0, 0, 0, 0, 0, 0, 0, false, false, false, false⟩

/-- Concrete globals for the boundary evaluation of the batch loop:
pt_levels 2, max_pfn 5, every p2m entry 7. -/
def gC3 : Globals := ⟨2, 5, fun _ => 7⟩

/-- Concrete loop state for the boundary evaluation: pfn_type 11
everywhere (so a write is visible), one unread payload page. -/
def stC3 : LoopState := ⟨fun _ => 11, 0, [], fun _ => [], [[0, 0]]⟩

/-- Concrete globals for the rewrite-rule witness: a 3-level guest. -/
def gC5 : Globals := ⟨3, 1, fun _ => 0⟩

/-- Concrete loop state for the rewrite-rule witness. -/
def stC5 : LoopState := ⟨fun _ => 0, 0, [], fun _ => [], [[0]]⟩

/-- Concrete globals for the race witness: a 2-level guest with
max_pfn = 1. -/
def gC7 : Globals := ⟨2, 1, fun _ => 9⟩

/-- Concrete loop state for the race witness: one payload page holding a
single present PTE (0x1001) whose pfn field (1) is at max_pfn. -/
def stC7 : LoopState := ⟨fun _ => 0, 0, [], fun _ => [], [[4097]]⟩

/-- Constant in-contract allocator for the Pass A witness. -/
def allocW2 : Nat → Nat := fun _ => 1

/-- Injective allocator for the Pass A relocation witness. -/
def allocW3 : Nat → Nat := fun c => c + 5

/-- pfn_type table marking every pfn L3TAB, for the Pass A witnesses. -/
def TW : Nat → Nat := fun _ => L3TAB

/-- Initial Pass A state with every mfn above the 4 GiB boundary. -/
def stA0 : PassAState := ⟨fun _ => 0x100000, fun _ _ => 0, [], 0⟩

/-- compat_register_guest_callback (callback.c lines 176-225).  The
code-selector fixup (fixup_guest_code_selector) is an oracle; this path
performs no canonicality test on the address.  CALLBACKTYPE_syscall is
not named by this switch and falls through to the default arm. -/
def compat_register_guest_callback (fixup_cs : Nat → Nat)
    (nmi_register : Nat → PVvcpu → Int × PVvcpu)
    (ty : CallbackType) (cs eip flags : Nat) (v : PVvcpu) : Int × PVvcpu :=
  match ty with
  | .event =>
    (0, { v with
      event_callback_cs := fixup_cs cs
      event_callback_eip := eip })
  | .failsafe =>
    (0, { v with
      failsafe_callback_cs := fixup_cs cs
      failsafe_callback_eip := eip
      failsafe_disables_events := flags &&& CALLBACKF_mask_events != 0 })
  | .syscall32 =>
    (0, { v with
      syscall32_callback_cs := fixup_cs cs
      syscall32_callback_eip := eip
      syscall32_disables_events := flags &&& CALLBACKF_mask_events != 0 })
  | .sysenter =>
    (0, { v with
      sysenter_callback_cs := fixup_cs cs
      sysenter_callback_eip := eip
      sysenter_disables_events := flags &&& CALLBACKF_mask_events != 0 })
  | .nmi => nmi_register eip v
  | .syscall | .other => (-ENOSYS, v)

end Xen

namespace Xen

theorem uncanonPTE_eq_none_iff (L M : Nat) (p2m : Nat → Nat) (w : Nat) :
    uncanonPTE L M p2m w = none ↔
      readPTE L w &&& _PAGE_PRESENT ≠ 0 ∧
        (readPTE L w >>> PAGE_SHIFT) &&& 0xffffffff ≥ M := by
  unfold uncanonPTE
  split_ifs with h1 h2 <;> simp_all

theorem uncanonLoop_false_iff (L M : Nat) (p2m : Nat → Nat) (page : List Nat) :
    (uncanonLoop L M p2m page).1 = false ↔
      ∃ w ∈ page, uncanonPTE L M p2m w = none := by
  induction page with
  | nil => simp [uncanonLoop]
  | cons w ws ih =>
    cases h : uncanonPTE L M p2m w with
    | none => simp [uncanonLoop, h]
    | some v => simp [uncanonLoop, h, ih]

theorem uncanonLoop_length (L M : Nat) (p2m : Nat → Nat) (page : List Nat) :
    (uncanonLoop L M p2m page).2.length = page.length := by
  induction page with
  | nil => rfl
  | cons w ws ih =>
    cases h : uncanonPTE L M p2m w with
    | none => simp [uncanonLoop, h]
    | some v => simp [uncanonLoop, h, ih]

theorem uncanonLoop_of_true (L M : Nat) (p2m : Nat → Nat) (page : List Nat)
    (h : (uncanonLoop L M p2m page).1 = true) :
    (uncanonLoop L M p2m page).2 =
      page.map (fun w => (uncanonPTE L M p2m w).getD w) := by
  induction page with
  | nil => rfl
  | cons w ws ih =>
    cases hw : uncanonPTE L M p2m w with
    | none => simp [uncanonLoop, hw] at h
    | some v =>
      have h' : (uncanonLoop L M p2m ws).1 = true := by
        simpa [uncanonLoop, hw] using h
      simp [uncanonLoop, hw, ih h']

theorem getD_map_lt (f : Nat → Nat) :
    ∀ (l : List Nat) (i : Nat), i < l.length →
      (l.map f).getD i 0 = f (l.getD i 0) := by
  intro l
  induction l with
  | nil => intro i hi; simp at hi
  | cons a as ih =>
    intro i hi
    cases i with
    | zero => rfl
    | succ n => simpa using ih n (by simpa using hi)

theorem getD_mem_of_lt (l : List Nat) (i : Nat) (h : i < l.length) :
    l.getD i 0 ∈ l := by
  induction l generalizing i with
  | nil => simp at h
  | cons a as ih =>
    cases i with
    | zero => simp
    | succ n =>
      have := ih n (by simpa using h)
      simpa using Or.inr this

/-- C1: for every page handed to uncanonicalize_pagetable, each PTE whose
present bit is clear is left unchanged; when the call succeeds, every
present PTE with in-range pfn field (bits 12..44) is stored as
(old & 0xFFFFFF0000000FFF) | (p2m[pfn] << PAGE_SHIFT), truncated to
4-byte width when pt_levels = 2 and kept at 8-byte width otherwise; and
the call fails (returns 0) exactly when some present PTE of the page has
a pfn field at or above max_pfn. -/
theorem C1_uncanonicalize_pagetable (L M : Nat) (p2m : Nat → Nat) (page : List Nat) :
    ((uncanonicalize_pagetable L M p2m page).1 = false ↔
      ∃ w ∈ page, readPTE L w &&& _PAGE_PRESENT ≠ 0 ∧
        (readPTE L w >>> PAGE_SHIFT) &&& 0xffffffff ≥ M)
    ∧ (uncanonicalize_pagetable L M p2m page).2.length = page.length
    ∧ ((uncanonicalize_pagetable L M p2m page).1 = true →
      ∀ i, i < page.length →
        (uncanonicalize_pagetable L M p2m page).2.getD i 0 =
          (if readPTE L (page.getD i 0) &&& _PAGE_PRESENT = 0 then
            page.getD i 0
          else
            storePTE L
              ((readPTE L (page.getD i 0) &&& 0xffffff0000000fff) |||
                ((p2m ((readPTE L (page.getD i 0) >>> PAGE_SHIFT) &&& 0xffffffff)
                  <<< PAGE_SHIFT) % WORD64)))) := by
  refine ⟨?_, uncanonLoop_length L M p2m page, ?_⟩
  · rw [uncanonicalize_pagetable, uncanonLoop_false_iff]
    constructor
    · rintro ⟨w, hw, hn⟩
      exact ⟨w, hw, (uncanonPTE_eq_none_iff L M p2m w).mp hn⟩
    · rintro ⟨w, hw, hn⟩
      exact ⟨w, hw, (uncanonPTE_eq_none_iff L M p2m w).mpr hn⟩
  · intro htrue i hi
    rw [uncanonicalize_pagetable] at *
    rw [uncanonLoop_of_true L M p2m page htrue, getD_map_lt _ page i hi]
    have hmem : page.getD i 0 ∈ page := getD_mem_of_lt page i hi
    have hnone : uncanonPTE L M p2m (page.getD i 0) ≠ none := by
      intro hc
      have : (uncanonLoop L M p2m page).1 = false :=
        (uncanonLoop_false_iff L M p2m page).mpr ⟨_, hmem, hc⟩
      rw [htrue] at this
      simp at this
    by_cases hpres : readPTE L (page.getD i 0) &&& _PAGE_PRESENT = 0
    · simp only [if_pos hpres]
      unfold uncanonPTE
      rw [if_neg (by simpa using hpres)]
      rfl
    · simp only [if_neg hpres]
      have hrange : ¬ (readPTE L (page.getD i 0) >>> PAGE_SHIFT) &&& 0xffffffff ≥ M := by
        intro hge
        exact hnone ((uncanonPTE_eq_none_iff L M p2m _).mpr ⟨hpres, hge⟩)
      unfold uncanonPTE
      rw [if_pos hpres, if_neg hrange]
      rfl

theorem C1_witness :
    (uncanonicalize_pagetable 2 4 (fun p => p + 10) [0x2001, 4, 0x3000]).1 = true
    ∧ (uncanonicalize_pagetable 2 4 (fun p => p + 10) [0x2001, 4, 0x3000]).2.getD 0 0 = 0xc001
    ∧ (uncanonicalize_pagetable 2 4 (fun p => p + 10) [0x2001, 4, 0x3000]).2.getD 1 0 = 4 := by
  have h := C1_uncanonicalize_pagetable 2 4 (fun p => p + 10) [0x2001, 4, 0x3000]
  refine ⟨by decide, ?_, ?_⟩
  · have h0 := h.2.2 (by decide) 0 (by decide)
    rw [h0]; decide
  · have h1 := h.2.2 (by decide) 1 (by decide)
    rw [h1]; decide

/-- C9 counterexample: a compat-path unregister of CALLBACKTYPE_syscall
returns -ENOSYS (it falls through the switch to the default arm), not
-EINVAL as the claim states for all five non-NMI types on both paths. -/
theorem C9_counterexample :
    compat_unregister_guest_callback 0 .syscall = -ENOSYS
    ∧ (-ENOSYS : Int) ≠ -EINVAL := by
  exact ⟨rfl, by decide⟩

/-- C9 (amended): on the native unregister path every type in {event,
failsafe, syscall, syscall32, sysenter} returns -EINVAL; on the compat
path the types {event, failsafe, syscall32, sysenter} return -EINVAL
but syscall returns -ENOSYS (its switch does not name that type); on
both paths nmi delegates to the NMI unregister helper and any other
type returns -ENOSYS. -/
theorem C9_unregister_paths (r : Int) :
    (∀ ty, ty = CallbackType.event ∨ ty = CallbackType.failsafe ∨
        ty = CallbackType.syscall ∨ ty = CallbackType.syscall32 ∨
        ty = CallbackType.sysenter →
      unregister_guest_callback r ty = -EINVAL)
    ∧ (∀ ty, ty = CallbackType.event ∨ ty = CallbackType.failsafe ∨
        ty = CallbackType.syscall32 ∨ ty = CallbackType.sysenter →
      compat_unregister_guest_callback r ty = -EINVAL)
    ∧ compat_unregister_guest_callback r .syscall = -ENOSYS
    ∧ unregister_guest_callback r .nmi = r
    ∧ compat_unregister_guest_callback r .nmi = r
    ∧ unregister_guest_callback r .other = -ENOSYS
    ∧ compat_unregister_guest_callback r .other = -ENOSYS := by
  refine ⟨?_, ?_, rfl, rfl, rfl, rfl, rfl⟩
  · intro ty h
    rcases h with h | h | h | h | h <;> subst h <;> rfl
  · intro ty h
    rcases h with h | h | h | h <;> subst h <;> rfl

theorem C9_witness :
    unregister_guest_callback 7 .event = -EINVAL
    ∧ compat_unregister_guest_callback 7 .sysenter = -EINVAL :=
  ⟨(C9_unregister_paths 7).1 .event (Or.inl rfl),
    (C9_unregister_paths 7).2.1 .sysenter (Or.inr (Or.inr (Or.inr rfl)))⟩

/-- C10: the native register path returns -EINVAL for any address the
canonicality oracle rejects, whatever the callback type, and leaves the
vCPU state untouched; the compat register path applies no canonicality
check at all: for each of its data-carrying types it succeeds (returns
0) and stores the fixed-up selector and eip for every address
whatsoever. -/
theorem C10_register_canonicality (is_canonical : Nat → Bool)
    (nmiR nmiRC : Nat → PVvcpu → Int × PVvcpu) (fixup : Nat → Nat)
    (ty : CallbackType) (address flags cs eip : Nat) (v : PVvcpu)
    (h : is_canonical address = false) :
    register_guest_callback is_canonical nmiR ty address flags v = (-EINVAL, v)
    ∧ compat_register_guest_callback fixup nmiRC .event cs eip flags v =
        (0, { v with event_callback_cs := fixup cs, event_callback_eip := eip })
    ∧ ((compat_register_guest_callback fixup nmiRC .failsafe cs eip flags v).1 = 0
        ∧ (compat_register_guest_callback fixup nmiRC
            .failsafe cs eip flags v).2.failsafe_callback_eip = eip)
    ∧ ((compat_register_guest_callback fixup nmiRC .syscall32 cs eip flags v).1 = 0
        ∧ (compat_register_guest_callback fixup nmiRC
            .syscall32 cs eip flags v).2.syscall32_callback_eip = eip)
    ∧ ((compat_register_guest_callback fixup nmiRC .sysenter cs eip flags v).1 = 0
        ∧ (compat_register_guest_callback fixup nmiRC
            .sysenter cs eip flags v).2.sysenter_callback_eip = eip) := by
  refine ⟨?_, rfl, ⟨rfl, rfl⟩, ⟨rfl, rfl⟩, ⟨rfl, rfl⟩⟩
  unfold register_guest_callback
  rw [h]
  rfl

theorem C10_witness :
    register_guest_callback (fun _ => false) (fun _ v => (0, v)) .syscall 450 0 vcpu0 =
      (-EINVAL, vcpu0) :=
  (C10_register_canonicality (fun _ => false) (fun _ v => (0, v)) (fun _ v => (0, v))
    (fun c => c) .syscall 450 0 0 0 vcpu0 rfl).1

/-- C8 counterexample: with ldt_base = hvirt_start = 4096 and
ldt_ents = 0 the source's sanitization passes (it tests
`ldt_base > hvirt_start`), while the claim's conjunct
ldt_base < hvirt_start is false, i.e. the claim would demand a fatal
abort there. -/
theorem C8_counterexample :
    ldt_check 4096 0 4096 = true ∧ ¬ ((4096 : Nat) < 4096) := by
  exact ⟨by decide, by decide⟩

/-- C8 (amended): context sanitization proceeds to the vCPU-context
install iff ldt_base is page-aligned, ldt_ents ≤ 8192,
ldt_base ≤ hvirt_start (the source accepts equality), and
(ldt_base + ldt_ents*8) mod 2^64 (the unsigned 64-bit sum the source
computes) is ≤ hvirt_start; if any of these fails it aborts fatally. -/
theorem C8_ldt_check (b e h : Nat) :
    ldt_check b e h = true ↔
      (b % PAGE_SIZE = 0 ∧ e ≤ 8192 ∧ b ≤ h ∧ (b + e * 8) % WORD64 ≤ h) := by
  have hmask : PAGE_SIZE - 1 = 2 ^ 12 - 1 := by norm_num [PAGE_SIZE]
  have hps : PAGE_SIZE = 2 ^ 12 := by norm_num [PAGE_SIZE]
  have hb : b &&& (PAGE_SIZE - 1) = b % PAGE_SIZE := by
    rw [hmask, hps]
    exact Nat.and_pow_two_sub_one_eq_mod b 12
  unfold ldt_check
  rw [hb]
  by_cases hc : b % PAGE_SIZE ≠ 0 ∨ e > 8192 ∨ b > h ∨ (b + e * 8) % WORD64 > h
  · rw [if_pos hc]
    simp only [Bool.false_eq_true, false_iff]
    rintro ⟨h1, h2, h3, h4⟩
    rcases hc with hc | hc | hc | hc <;> omega
  · rw [if_neg hc]
    push_neg at hc
    simp only [true_iff]
    exact ⟨hc.1, hc.2.1, hc.2.2.1, hc.2.2.2⟩

/-- C3 evaluation at the boundary input pfn = max_pfn: the claim (and
the spec) demand a fatal abort whenever pfn ≥ max_pfn, but the source
tests `pfn > max_pfn`, so the entry word 5 with pfn = max_pfn = 5 is
processed normally: pfn_type[5] is written (one past the end of the
calloc'd max_pfn-element array), the payload is consumed and an m2p
update (p2m[5], 5) is queued; only pfn = 6 > max_pfn aborts. -/
theorem C3_boundary_eval :
    entryFatal (processEntry gC3 false false 5 stC3) = false
    ∧ entryPfnTypeAt 5 (processEntry gC3 false false 5 stC3) = some 0
    ∧ entryM2P (processEntry gC3 false false 5 stC3) = some [(7, 5)]
    ∧ entryFatal (processEntry gC3 false false 6 stC3) = true := by
  exact ⟨by decide, by decide, by decide, by decide⟩

theorem writePage_nraces (verify : Bool) (st : LoopState) (mfn : Nat) (pg : List Nat) :
    (writePage verify st mfn pg).nraces = st.nraces := by
  unfold writePage; split <;> rfl

theorem writePage_m2p (verify : Bool) (st : LoopState) (mfn : Nat) (pg : List Nat) :
    (writePage verify st mfn pg).m2p = st.m2p := by
  unfold writePage; split <;> rfl

theorem writePage_pfn_type (verify : Bool) (st : LoopState) (mfn : Nat) (pg : List Nat) :
    (writePage verify st mfn pg).pfn_type = st.pfn_type := by
  unfold writePage; split <;> rfl

/-- C5: during the main loop a page whose table-type is L1TAB has its
PTEs rewritten in-line iff the PAE fixer's gate (pt_levels == 3 and no
pae_extended_cr3) is off, while L2/L3/L4 pages always have the rewriter
invoked; and the PAE lowmem fixer body executes iff that same gate is
on. -/
theorem C5_rewrite_rule (g : Globals) (pae verify : Bool) (w : Nat)
    (st : LoopState) (page : List Nat) (rest : List (List Nat))
    (hs : st.stream = page :: rest)
    (hx : entry_type w ≠ XTAB)
    (hp : ¬ entry_pfn w > g.max_pfn) :
    ((entry_type w &&& LTABTYPE_MASK) = L1TAB →
      invokedRewriter (processEntry g pae verify w st) =
        ! paeFixupRuns g.pt_levels pae)
    ∧ ((entry_type w &&& LTABTYPE_MASK) = L2TAB ∨
        (entry_type w &&& LTABTYPE_MASK) = L3TAB ∨
        (entry_type w &&& LTABTYPE_MASK) = L4TAB →
      invokedRewriter (processEntry g pae verify w st) = true)
    ∧ (∀ (body : LoopState → LoopState) (st0 : LoopState),
        (paeFixupRuns g.pt_levels pae = true →
          paeFixupPhase g.pt_levels pae body st0 = body st0)
        ∧ (paeFixupRuns g.pt_levels pae = false →
          paeFixupPhase g.pt_levels pae body st0 = st0))
    ∧ (paeFixupRuns g.pt_levels pae = true ↔ (g.pt_levels = 3 ∧ pae = false)) := by
  obtain ⟨tt, nn, qq, mm, strm⟩ := st
  simp only at hs
  subst hs
  refine ⟨?_, ?_, ?_, ?_⟩
  · intro h1
    simp only [processEntry, if_neg hx, if_neg hp, h1]
    rw [if_pos (show L1TAB ≤ L1TAB ∧ L1TAB ≤ L4TAB from ⟨by decide, by decide⟩)]
    by_cases hgate : g.pt_levels = 3 ∧ pae = false
    · have hcond : ¬ (g.pt_levels ≠ 3 ∨ pae = true ∨ L1TAB ≠ L1TAB) := by
        push_neg
        refine ⟨hgate.1, ?_, rfl⟩
        rw [hgate.2]
        decide
      rw [if_neg hcond]
      have hrun : paeFixupRuns g.pt_levels pae = true := by
        simp [paeFixupRuns, hgate.1, hgate.2]
      rw [hrun]
      rfl
    · have hcond : g.pt_levels ≠ 3 ∨ pae = true ∨ L1TAB ≠ L1TAB := by
        by_cases h3 : g.pt_levels = 3
        · cases pae
          · exact absurd ⟨h3, rfl⟩ hgate
          · exact Or.inr (Or.inl rfl)
        · exact Or.inl h3
      rw [if_pos hcond]
      have hrun : paeFixupRuns g.pt_levels pae = false := by
        by_cases h3 : g.pt_levels = 3
        · cases pae
          · exact absurd ⟨h3, rfl⟩ hgate
          · simp [paeFixupRuns]
        · have hbeq : (g.pt_levels == 3) = false := beq_eq_false_iff_ne.mpr h3
          simp [paeFixupRuns, hbeq]
      rw [hrun]
      by_cases hr : (uncanonicalize_pagetable g.pt_levels g.max_pfn g.p2m page).1 = true
      · rw [if_pos hr]; rfl
      · rw [if_neg hr]; rfl
  · intro h2
    simp only [processEntry, if_neg hx, if_neg hp]
    have hty : L1TAB ≤ entry_type w &&& LTABTYPE_MASK ∧
        entry_type w &&& LTABTYPE_MASK ≤ L4TAB := by
      rcases h2 with h2 | h2 | h2 <;> rw [h2] <;> exact ⟨by decide, by decide⟩
    have hne : entry_type w &&& LTABTYPE_MASK ≠ L1TAB := by
      rcases h2 with h2 | h2 | h2 <;> rw [h2] <;> decide
    rw [if_pos hty, if_pos (Or.inr (Or.inr hne))]
    by_cases hr : (uncanonicalize_pagetable g.pt_levels g.max_pfn g.p2m page).1 = true
    · rw [if_pos hr]; rfl
    · rw [if_neg hr]; rfl
  · intro body st0
    constructor
    · intro hrun
      unfold paeFixupPhase
      rw [hrun]
      rfl
    · intro hrun
      unfold paeFixupPhase
      rw [hrun]
      rfl
  · cases pae <;> simp [paeFixupRuns]

theorem C5_witness :
    invokedRewriter (processEntry gC5 false false L1TAB stC5) =
      ! paeFixupRuns gC5.pt_levels false
    ∧ (paeFixupRuns gC5.pt_levels false = true ↔ (gC5.pt_levels = 3 ∧ False = False)) := by
  have h := C5_rewrite_rule gC5 false false L1TAB stC5 [0] [] rfl (by decide) (by decide)
  refine ⟨h.1 (by decide), ?_⟩
  constructor
  · intro _; exact ⟨rfl, rfl⟩
  · intro _; rfl

/-- C7: when uncanonicalize_pagetable fails on a page-table page during
the main loop, the failure is non-fatal: the race counter is bumped by
exactly one, the entry's m2p update is skipped (the queue is unchanged),
the pfn_type record made earlier in the iteration stays, and the batch
loop carries on with the remaining entries of the batch. -/
theorem C7_race_nonfatal (g : Globals) (pae verify : Bool) (w : Nat)
    (ws : List Nat) (st : LoopState) (page : List Nat) (rest : List (List Nat))
    (hs : st.stream = page :: rest)
    (hx : entry_type w ≠ XTAB)
    (hp : ¬ entry_pfn w > g.max_pfn)
    (ht : L1TAB ≤ entry_type w &&& LTABTYPE_MASK ∧
      entry_type w &&& LTABTYPE_MASK ≤ L4TAB)
    (hc : g.pt_levels ≠ 3 ∨ pae = true ∨ entry_type w &&& LTABTYPE_MASK ≠ L1TAB)
    (hf : (uncanonicalize_pagetable g.pt_levels g.max_pfn g.p2m page).1 = false) :
    ∃ st', processEntry g pae verify w st = .raced st'
      ∧ st'.nraces = st.nraces + 1
      ∧ st'.m2p = st.m2p
      ∧ st'.pfn_type (entry_pfn w) = entry_type w
      ∧ batchLoop g pae verify (w :: ws) st = batchLoop g pae verify ws st' := by
  obtain ⟨tt, nn, qq, mm, strm⟩ := st
  simp only at hs
  subst hs
  have hpe : processEntry g pae verify w ⟨tt, nn, qq, mm, page :: rest⟩ =
      .raced { writePage verify
          ⟨fun p => if p = entry_pfn w then entry_type w else tt p, nn, qq, mm, rest⟩
          (g.p2m (entry_pfn w))
          (uncanonicalize_pagetable g.pt_levels g.max_pfn g.p2m page).2 with
        nraces := (writePage verify
          ⟨fun p => if p = entry_pfn w then entry_type w else tt p, nn, qq, mm, rest⟩
          (g.p2m (entry_pfn w))
          (uncanonicalize_pagetable g.pt_levels g.max_pfn g.p2m page).2).nraces + 1 } := by
    simp only [processEntry, if_neg hx, if_neg hp, if_pos ht, if_pos hc]
    rw [hf]
    rfl
  refine ⟨_, hpe, ?_, ?_, ?_, ?_⟩
  · rw [writePage_nraces]
  · rw [writePage_m2p]
  · rw [writePage_pfn_type]
    simp
  · simp only [batchLoop]
    rw [hpe]

theorem C7_witness :
    entryNraces (processEntry gC7 false false L2TAB stC7) = some 1
    ∧ entryM2P (processEntry gC7 false false L2TAB stC7) = some [] := by
  obtain ⟨st', h1, h2, h3, _, _⟩ :=
    C7_race_nonfatal gC7 false false L2TAB [] stC7 [4097] [] rfl (by decide) (by decide)
      ⟨by decide, by decide⟩ (Or.inl (by decide)) (by decide)
  rw [h1]
  exact ⟨by simp [entryNraces, h2, stC7], by simp [entryM2P, h3, stC7]⟩

theorem pin_fold_inv (B : Nat) (T M : Nat → Nat) :
    ∀ (idxs : List Nat) (batches : List (List (PinCmd × Nat)))
      (pending : List (PinCmd × Nat)),
      (idxs.foldl (pinStep B T M) (batches, pending)).1.flatten ++
        (idxs.foldl (pinStep B T M) (batches, pending)).2 =
      batches.flatten ++ pending ++ idxs.filterMap (pinEmit T M) := by
  intro idxs
  induction idxs with
  | nil => intro b p; simp
  | cons i is ih =>
    intro b p
    simp only [List.foldl_cons, List.filterMap_cons]
    cases he : pinEmit T M i with
    | none => simp only [pinStep, he]; rw [ih]
    | some c =>
      simp only [pinStep, he]
      by_cases hlen : (p ++ [c]).length = B
      · rw [if_pos hlen, ih]
        simp
      · rw [if_neg hlen, ih]
        simp

theorem length_filterMap_pin (f : Nat → Option (PinCmd × Nat)) (l : List Nat) :
    (l.filterMap f).length = (l.filter (fun a => (f a).isSome)).length := by
  induction l with
  | nil => rfl
  | cons a as ih => cases h : f a <;> simp [h, ih]

/-- C4 counterexample: with max_pfn = 1 and pfn_type[0] = LPINTAB
(pin flag set, table-type field NOTAB — a value the main loop accepts,
since it skips only XTAB and checks the masked type against NOTAB), the
pin walk submits no command at all, while the number of pfns with
LPINTAB set is 1, so the claimed count equality fails. -/
theorem C4_counterexample :
    (pinner MAX_PIN_BATCH (fun _ => LPINTAB) (fun _ => 3) 1).flatten.length = 0
    ∧ ((List.range 1).filter
        (fun i => (fun _ : Nat => LPINTAB) i &&& LPINTAB != 0)).length = 1 := by
  exact ⟨by decide, by decide⟩

/-- C4 (amended): across all batches including the final partial one,
the pin walk submits exactly one command per pfn whose type word has
LPINTAB set and whose table-type field is one of L1TAB..L4TAB — each
carrying the matching Lk opcode and mfn = p2m[pfn], in walk order — and
no command for a pfn whose LPINTAB is set but whose table-type field
matches no Lk opcode (the switch default `continue`s), so the submitted
count is the number of pfns with both LPINTAB set and a pinnable
table-type. -/
theorem C4_pinner_characterization (B : Nat) (T M : Nat → Nat) (N : Nat) :
    (pinner B T M N).flatten = (List.range N).filterMap (pinEmit T M)
    ∧ (pinner B T M N).flatten.length =
        ((List.range N).filter (fun i => (pinEmit T M i).isSome)).length
    ∧ (∀ i, pinEmit T M i =
        (if T i &&& LPINTAB = 0 then none
          else (pinCmdOf (T i &&& LTABTYPE_MASK)).map (fun c => (c, M i)))) := by
  have hjoin : (pinner B T M N).flatten = (List.range N).filterMap (pinEmit T M) := by
    unfold pinner
    have h := pin_fold_inv B T M (List.range N) [] []
    simp only [List.flatten_nil, List.nil_append] at h
    by_cases he : ((List.range N).foldl (pinStep B T M) ([], [])).2 = []
    · rw [if_pos he]
      rw [he] at h
      simpa using h
    · rw [if_neg he]
      rw [List.flatten_append]
      simpa using h
  refine ⟨hjoin, ?_, fun i => rfl⟩
  rw [hjoin]
  exact length_filterMap_pin (pinEmit T M) (List.range N)

theorem passASeg_frame (alloc T : Nat → Nat) :
    ∀ (n s : Nat) (st st' : PassAState),
      passASeg alloc T s n st = .ok st' →
      (∀ j, j < s ∨ s + n ≤ j → st'.p2m j = st.p2m j)
      ∧ (∀ j, j < s ∨ s + n ≤ j →
          st'.m2p.filter (fun e => e.2 == j) = st.m2p.filter (fun e => e.2 == j))
      ∧ st.calls ≤ st'.calls
      ∧ (∀ m, (∀ c, st.calls ≤ c → alloc c ≠ m) → ∀ j, st'.mem m j = st.mem m j) := by
  intro n
  induction n with
  | zero =>
    intro s st st' hrun
    simp only [passASeg] at hrun
    cases hrun
    exact ⟨fun j _ => rfl, fun j _ => rfl, Nat.le_refl _, fun m _ j => rfl⟩
  | succ k ih =>
    intro s st st' hrun
    simp only [passASeg] at hrun
    cases hstep : passAStep alloc T s st with
    | error e => rw [hstep] at hrun; cases hrun
    | ok st1 =>
      rw [hstep] at hrun
      obtain ⟨hp, hq, hcl, hm⟩ := ih (s + 1) st1 st' hrun
      unfold passAStep at hstep
      by_cases hcnd : T s &&& LTABTYPE_MASK = L3TAB ∧ st.p2m s > 0xfffff
      · rw [if_pos hcnd] at hstep
        by_cases hz : alloc st.calls = 0
        · rw [if_pos hz] at hstep; cases hstep
        · rw [if_neg hz] at hstep
          injection hstep with hstep
          subst hstep
          refine ⟨?_, ?_, ?_, ?_⟩
          · intro j hj
            rw [hp j (by omega)]
            have hjs : j ≠ s := by omega
            simp [hjs]
          · intro j hj
            rw [hq j (by omega)]
            have hjs : (s == j) = false := beq_eq_false_iff_ne.mpr (by omega)
            simp [List.filter_append, hjs]
          · exact Nat.le_trans (Nat.le_succ _) hcl
          · intro m hm2 j
            have hm2' : ∀ c, st.calls + 1 ≤ c → alloc c ≠ m :=
              fun c hc => hm2 c (by omega)
            rw [hm m hm2' j]
            have hne : ¬ m = alloc st.calls :=
              fun h => hm2 st.calls (Nat.le_refl _) h.symm
            simp [hne]
      · rw [if_neg hcnd] at hstep
        injection hstep with hstep
        subst hstep
        exact ⟨fun j hj => hp j (by omega), fun j hj => hq j (by omega), hcl, hm⟩

theorem passASeg_split (alloc T : Nat → Nat) :
    ∀ (a b s : Nat) (st : PassAState),
      passASeg alloc T s (a + b) st =
        match passASeg alloc T s a st with
        | .error e => .error e
        | .ok st1 => passASeg alloc T (s + a) b st1 := by
  intro a
  induction a with
  | zero =>
    intro b s st
    simp [passASeg]
  | succ k ih =>
    intro b s st
    have hadd : (k + 1) + b = (k + b) + 1 := by omega
    rw [hadd]
    simp only [passASeg]
    cases hstep : passAStep alloc T s st with
    | error e => rfl
    | ok st1 =>
      dsimp only
      rw [ih b (s + 1) st1]
      have hsa : s + 1 + k = s + (k + 1) := by omega
      rw [hsa]

theorem passASeg_L3_below (alloc T : Nat → Nat) (hA : ∀ c, alloc c < 2 ^ 20) :
    ∀ (n s : Nat) (st st' : PassAState),
      passASeg alloc T s n st = .ok st' →
      ∀ j, s ≤ j → j < s + n → T j &&& LTABTYPE_MASK = L3TAB →
        st'.p2m j < 2 ^ 20 := by
  intro n
  induction n with
  | zero =>
    intro s st st' _ j h1 h2 _
    omega
  | succ k ih =>
    intro s st st' hrun j hj1 hj2 hty
    simp only [passASeg] at hrun
    cases hstep : passAStep alloc T s st with
    | error e => rw [hstep] at hrun; cases hrun
    | ok st1 =>
      rw [hstep] at hrun
      by_cases hjs : j = s
      · subst hjs
        have hfr := (passASeg_frame alloc T k (j + 1) st1 st' hrun).1 j (Or.inl (by omega))
        rw [hfr]
        unfold passAStep at hstep
        by_cases hcnd : T j &&& LTABTYPE_MASK = L3TAB ∧ st.p2m j > 0xfffff
        · rw [if_pos hcnd] at hstep
          by_cases hz : alloc st.calls = 0
          · rw [if_pos hz] at hstep; cases hstep
          · rw [if_neg hz] at hstep
            injection hstep with hstep
            subst hstep
            simpa using hA st.calls
        · rw [if_neg hcnd] at hstep
          injection hstep with hstep
          subst hstep
          have hlow : ¬ st.p2m j > 0xfffff := fun hgt => hcnd ⟨hty, hgt⟩
          have h20 : (2 : Nat) ^ 20 = 1048576 := by norm_num
          omega
      · exact ih (s + 1) st1 st' hrun j (by omega) (by omega) hty

/-- C2: if make_page_below_4G honours its contract (every allocation it
returns is an mfn below 2^20), then after PAE lowmem Pass A completes,
every pfn below max_pfn whose pfn_type table-type field is L3TAB
satisfies p2m[pfn] < 2^20. -/
theorem C2_passA_L3_below_4G (alloc T : Nat → Nat) (max_pfn : Nat)
    (st0 st' : PassAState)
    (hA : ∀ c, alloc c < 2 ^ 20)
    (hdone : passA alloc T max_pfn st0 = .ok st') :
    ∀ pfn, pfn < max_pfn → T pfn &&& LTABTYPE_MASK = L3TAB →
      st'.p2m pfn < 2 ^ 20 := by
  intro pfn h1 h2
  exact passASeg_L3_below alloc T hA max_pfn 0 st0 st' hdone pfn (Nat.zero_le _)
    (by omega) h2

theorem C2_witness :
    (segOutD stA0 (passA allocW2 TW 1 stA0)).p2m 0 < 2 ^ 20 := by
  have h : passA allocW2 TW 1 stA0 = .ok (segOutD stA0 (passA allocW2 TW 1 stA0)) := rfl
  exact C2_passA_L3_below_4G allocW2 TW 1 stA0 _ (fun c => by norm_num [allocW2]) h 0
    (by decide) (by decide)

/-- C6: for every L3TAB pfn Pass A relocates (table-type L3TAB and
current mfn above 0xfffff when its turn comes), given a fresh-frame
allocation oracle (injective make_page_below_4G results) and an empty
m2p queue at entry: after Pass A the four 8-byte L3 PTE slots the old
mfn held just before the relocation sit identically in the new mfn,
p2m[pfn] equals the new mfn, and the m2p updates queued for that pfn
are exactly the single entry (new_mfn, pfn). -/
theorem C6_passA_relocation (alloc T : Nat → Nat) (max_pfn i : Nat)
    (st0 st1 st' : PassAState)
    (hinj : Function.Injective alloc)
    (hq0 : st0.m2p = [])
    (hi : i < max_pfn)
    (hpre : passASeg alloc T 0 i st0 = .ok st1)
    (hty : T i &&& LTABTYPE_MASK = L3TAB)
    (hhigh : st1.p2m i > 0xfffff)
    (hall : passA alloc T max_pfn st0 = .ok st') :
    st'.p2m i = alloc st1.calls
    ∧ (∀ j, j < 4 → st'.mem (alloc st1.calls) j = st1.mem (st1.p2m i) j)
    ∧ st'.m2p.filter (fun e => e.2 == i) = [(alloc st1.calls, i)] := by
  unfold passA at hall
  have hsplit := passASeg_split alloc T i (max_pfn - i) 0 st0
  have hmn : i + (max_pfn - i) = max_pfn := by omega
  rw [hmn] at hsplit
  rw [hsplit, hpre] at hall
  have hzi : (0 : Nat) + i = i := by omega
  rw [hzi] at hall
  have hb : max_pfn - i = (max_pfn - i - 1) + 1 := by omega
  rw [hb] at hall
  simp only [passASeg] at hall
  cases hstep : passAStep alloc T i st1 with
  | error e => rw [hstep] at hall; cases hall
  | ok st2 =>
    rw [hstep] at hall
    unfold passAStep at hstep
    rw [if_pos ⟨hty, hhigh⟩] at hstep
    by_cases hz : alloc st1.calls = 0
    · rw [if_pos hz] at hstep; cases hstep
    · rw [if_neg hz] at hstep
      injection hstep with hstep
      subst hstep
      obtain ⟨hp, hq, hcl, hm⟩ :=
        passASeg_frame alloc T (max_pfn - i - 1) (i + 1) _ st' hall
      refine ⟨?_, ?_, ?_⟩
      · rw [hp i (Or.inl (by omega))]
        simp
      · intro j hj
        have hmz : ∀ c, st1.calls + 1 ≤ c → alloc c ≠ alloc st1.calls := by
          intro c hc heq
          have := hinj heq
          omega
        rw [hm (alloc st1.calls) hmz j]
        simp [hj]
      · rw [hq i (Or.inl (by omega))]
        have hpre_empty : st1.m2p.filter (fun e => e.2 == i) = [] := by
          have hfr0 := (passASeg_frame alloc T i 0 st0 st1 hpre).2.1 i (Or.inr (by omega))
          rw [hfr0, hq0]
          rfl
        simp [List.filter_append, hpre_empty]

theorem allocW3_inj : Function.Injective allocW3 := by
  intro a b h
  simp only [allocW3] at h
  omega

theorem C6_witness :
    (segOutD stA0 (passA allocW3 TW 1 stA0)).p2m 0 = 5
    ∧ (segOutD stA0 (passA allocW3 TW 1 stA0)).m2p.filter (fun e => e.2 == 0) =
        [(5, 0)]
    ∧ (segOutD stA0 (passA allocW3 TW 1 stA0)).mem 5 0 = stA0.mem 0x100000 0 := by
  have h : passA allocW3 TW 1 stA0 = .ok (segOutD stA0 (passA allocW3 TW 1 stA0)) := rfl
  have hc := C6_passA_relocation allocW3 TW 1 0 stA0 stA0 _ allocW3_inj rfl
    (by decide) rfl (by decide) (by decide) h
  exact ⟨hc.1, hc.2.2, hc.2.1 0 (by decide)⟩

end Xen
